import Mathlib

/-!
Verification of the vid-clip-ai pipeline core against its specification.

The definitions below are shallow embeddings of the Python sources:
  - src/pipeline/state_machine.py   (VideoState, StateMachine)
  - src/pipeline/orchestrator.py    (PipelineOrchestrator)
  - src/database/operations.py      (DatabaseOperations.add_or_update_score)
  - src/database/models.py          (SegmentScore row)
  - src/agents/text_scoring.py, src/agents/vision_scoring.py
  - src/agents/scoring_ranking.py
  - src/protocols/prompt_protocols.py (Prompt.format, Prompt.parse_output,
    the pydantic output schemas)

Python floats are modelled as rationals, fallible code as Except/Option,
and the mutable database session as explicit state passing.
-/

set_option maxRecDepth 20000

namespace VidClip

/-! ## Generic substring machinery (used to state "the message names X"). -/

/-- Boolean prefix test on character lists. -/
def isPrefixB : List Char → List Char → Bool
  | [], _ => true
  | _ :: _, [] => false
  | a :: s, b :: l => a == b && isPrefixB s l

/-- Boolean substring-occurrence test, matching the semantics of the Python
`in` operator on strings. -/
def occursB (s : List Char) : List Char → Bool
  | [] => isPrefixB s []
  | c :: t => isPrefixB s (c :: t) || occursB s t

theorem isPrefixB_self_append (s r : List Char) : isPrefixB s (s ++ r) = true := by
  induction s with
  | nil => rfl
  | cons a t ih => simp [isPrefixB, ih]

theorem occursB_of_isPrefixB {s l : List Char} (h : isPrefixB s l = true) :
    occursB s l = true := by
  cases l with
  | nil => simpa [occursB] using h
  | cons c t => simp [occursB, h]

theorem occursB_append_right {s t : List Char} (l : List Char)
    (h : occursB s t = true) : occursB s (l ++ t) = true := by
  induction l with
  | nil => simpa using h
  | cons c r ih => simp [occursB, ih]

theorem occursB_self_append (s r : List Char) : occursB s (s ++ r) = true :=
  occursB_of_isPrefixB (isPrefixB_self_append s r)

/-! ## State machine (src/pipeline/state_machine.py) -/

/-- The `VideoState` enum. -/
inductive VideoState where
  | ingested
  | transcribed
  | segmented
  | scored
  | ready
  | archived
  | error
deriving DecidableEq, Repr

/-- The string value of each enum member. -/
def VideoState.value : VideoState → String
  | .ingested => "ingested"
  | .transcribed => "transcribed"
  | .segmented => "segmented"
  | .scored => "scored"
  | .ready => "ready"
  | .archived => "archived"
  | .error => "error"

/-- `VideoState(s)`: lookup of an enum member by value; `none` models the
`ValueError` raised by the Enum constructor. -/
def VideoState.ofString : String → Option VideoState
  | "ingested" => some .ingested
  | "transcribed" => some .transcribed
  | "segmented" => some .segmented
  | "scored" => some .scored
  | "ready" => some .ready
  | "archived" => some .archived
  | "error" => some .error
  | _ => none

/-- `StateMachine.TRANSITIONS` as a total function (the dict has every state
as a key). -/
def transitions : VideoState → List VideoState
  | .ingested => [.transcribed, .error]
  | .transcribed => [.segmented, .error]
  | .segmented => [.scored, .error]
  | .scored => [.ready, .error]
  | .ready => [.archived, .error]
  | .archived => []
  | .error => []

/-- `StateMachine.can_transition`: `next_state in cls.TRANSITIONS.get(current, [])`. -/
def can_transition (current next_state : VideoState) : Bool :=
  (transitions current).contains next_state

/-- The two `ValueError` shapes raised by `validate_transition`. -/
inductive TransitionError where
  | invalidState (msg : String)
  | invalidTransition (current next_state : String)
deriving DecidableEq, Repr

/-- The message of each error, as built by the f-strings in the source. -/
def renderTransitionError : TransitionError → String
  | .invalidState m => "Invalid state: " ++ m
  | .invalidTransition c n => "Invalid transition from " ++ c ++ " to " ++ n

/-- `StateMachine.validate_transition`: converts both strings to enum members
(raising `Invalid state` if either fails, the first failure winning as in the
source), then checks the transition table. -/
def validate_transition (current next_state : String) : Except TransitionError Unit :=
  match VideoState.ofString current with
  | none => .error (.invalidState (current ++ " is not a valid VideoState"))
  | some c =>
    match VideoState.ofString next_state with
    | none => .error (.invalidState (next_state ++ " is not a valid VideoState"))
    | some n =>
      if can_transition c n then .ok ()
      else .error (.invalidTransition current next_state)

/-- C1: for every pair of state strings, if both are recognized state names
then `validate_transition` succeeds iff the pair appears in the transition
table, and otherwise fails with an `invalidTransition` error whose message
names both states; if either string is not a recognized state name it fails
with an `invalidState` error. -/
theorem c1_validate_transition_characterization (c n : String) :
    (∀ cs ns, VideoState.ofString c = some cs → VideoState.ofString n = some ns →
      ((validate_transition c n = .ok ()) ↔ ns ∈ transitions cs) ∧
      (ns ∉ transitions cs →
        validate_transition c n = .error (.invalidTransition c n) ∧
        occursB c.data (renderTransitionError (.invalidTransition c n)).data = true ∧
        occursB n.data (renderTransitionError (.invalidTransition c n)).data = true))
    ∧ ((VideoState.ofString c = none ∨ VideoState.ofString n = none) →
      ∃ m, validate_transition c n = .error (.invalidState m)) := by
  constructor
  · intro cs ns hc hn
    have hmem : can_transition cs ns = true ↔ ns ∈ transitions cs := by
      cases cs <;> cases ns <;> decide
    constructor
    · rw [validate_transition, hc, hn]
      by_cases h : can_transition cs ns = true
      · simp [h, hmem.mp h]
      · simp [h]
        intro hm
        exact h (hmem.mpr hm)
    · intro hnot
      have hfalse : can_transition cs ns = false := by
        cases hct : can_transition cs ns
        · rfl
        · exact absurd (hmem.mp hct) hnot
      refine ⟨by rw [validate_transition, hc, hn]; simp [hfalse], ?_, ?_⟩
      · have hd : (renderTransitionError (.invalidTransition c n)).data
            = ("Invalid transition from ").data ++ (c.data ++ ((" to ").data ++ n.data)) := by
          show ((("Invalid transition from ").data ++ c.data) ++ (" to ").data) ++ n.data = _
          simp [List.append_assoc]
        rw [hd]
        exact occursB_append_right _ (occursB_self_append c.data _)
      · have hd : (renderTransitionError (.invalidTransition c n)).data
            = ((("Invalid transition from ").data ++ c.data) ++ (" to ").data)
              ++ (n.data ++ []) := by
          show ((("Invalid transition from ").data ++ c.data) ++ (" to ").data) ++ n.data = _
          simp
        rw [hd]
        exact occursB_append_right _ (occursB_self_append n.data [])
  · intro h
    rcases hc : VideoState.ofString c with _ | cs
    · exact ⟨c ++ " is not a valid VideoState", by rw [validate_transition, hc]⟩
    · rcases hn : VideoState.ofString n with _ | ns
      · exact ⟨n ++ " is not a valid VideoState", by rw [validate_transition, hc, hn]⟩
      · rcases h with h | h
        · rw [hc] at h; cases h
        · rw [hn] at h; cases h

/-- Witness for C1, instantiated at the pair from Scenario D of the spec:
`READY → TRANSCRIBED` is rejected with an `invalidTransition` naming both. -/
theorem c1_witness :
    validate_transition ("ready") ("transcribed")
      = .error (.invalidTransition ("ready") ("transcribed")) :=
  (((c1_validate_transition_characterization ("ready") ("transcribed")).1
      .ready .transcribed (by decide) (by decide)).2 (by decide)).1

/-! ## SegmentScore rows and `add_or_update_score` (src/database/models.py,
src/database/operations.py) -/

/-- A `segment_scores` row. Nullable float columns are `Option ℚ`; the
`escalated_to_cloud` boolean column has default `False`. -/
structure SegmentScoreRow where
  segment_id : Nat
  text_score : Option ℚ
  vision_score : Option ℚ
  audio_emphasis_score : Option ℚ
  facial_emphasis_score : Option ℚ
  cloud_score : Option ℚ
  combined_score : Option ℚ
  escalated_to_cloud : Bool
deriving DecidableEq, Repr

/-- The `**scores` keyword arguments accepted by `add_or_update_score`,
restricted to the row columns. `none` models a keyword that is absent or
passed as `None` (the update loop treats both identically: `if value is not
None`). -/
structure ScoreKwargs where
  text_score : Option ℚ
  vision_score : Option ℚ
  audio_emphasis_score : Option ℚ
  facial_emphasis_score : Option ℚ
  cloud_score : Option ℚ
  combined_score : Option ℚ
  escalated_to_cloud : Option Bool
deriving DecidableEq, Repr

/-- The update branch: `for key, value in scores.items(): if value is not
None: setattr(score, key, value)`. -/
def applyKwargs (row : SegmentScoreRow) (kw : ScoreKwargs) : SegmentScoreRow :=
  { segment_id := row.segment_id
    text_score := match kw.text_score with | some v => some v | none => row.text_score
    vision_score := match kw.vision_score with | some v => some v | none => row.vision_score
    audio_emphasis_score :=
      match kw.audio_emphasis_score with | some v => some v | none => row.audio_emphasis_score
    facial_emphasis_score :=
      match kw.facial_emphasis_score with | some v => some v | none => row.facial_emphasis_score
    cloud_score := match kw.cloud_score with | some v => some v | none => row.cloud_score
    combined_score := match kw.combined_score with | some v => some v | none => row.combined_score
    escalated_to_cloud :=
      match kw.escalated_to_cloud with | some v => v | none => row.escalated_to_cloud }

/-- The create branch: `SegmentScore(segment_id=segment_id, **scores)`;
unset columns take their column defaults. -/
def newRowFromKwargs (sid : Nat) (kw : ScoreKwargs) : SegmentScoreRow :=
  { segment_id := sid
    text_score := kw.text_score
    vision_score := kw.vision_score
    audio_emphasis_score := kw.audio_emphasis_score
    facial_emphasis_score := kw.facial_emphasis_score
    cloud_score := kw.cloud_score
    combined_score := kw.combined_score
    escalated_to_cloud := match kw.escalated_to_cloud with | some v => v | none => false }

/-- `query(SegmentScore).filter_by(segment_id=segment_id).first()`. -/
def getScore (st : List SegmentScoreRow) (sid : Nat) : Option SegmentScoreRow :=
  st.find? (fun r => r.segment_id == sid)

/-- `DatabaseOperations.add_or_update_score`. `segment_id` is the table's
primary key, so updating every matching row is updating the unique match. -/
def add_or_update_score (st : List SegmentScoreRow) (sid : Nat) (kw : ScoreKwargs) :
    List SegmentScoreRow :=
  match st.find? (fun r => r.segment_id == sid) with
  | some _ => st.map (fun r => if r.segment_id == sid then applyKwargs r kw else r)
  | none => st ++ [newRowFromKwargs sid kw]

theorem find?_update_map (kw : ScoreKwargs) (sid : Nat) :
    ∀ (st : List SegmentScoreRow) (row : SegmentScoreRow),
      st.find? (fun r => r.segment_id == sid) = some row →
      (st.map (fun r => if r.segment_id == sid then applyKwargs r kw else r)).find?
          (fun r => r.segment_id == sid) = some (applyKwargs row kw) := by
  intro st
  induction st with
  | nil => intro row h; simp [List.find?] at h
  | cons r t ih =>
    intro row h
    cases hb : (r.segment_id == sid) with
    | true =>
      simp only [List.find?_cons, hb] at h
      cases h
      have hap : ((applyKwargs r kw).segment_id == sid) = true := by
        simpa [applyKwargs] using hb
      simp only [List.map_cons]
      rw [if_pos hb]
      simp only [List.find?_cons, hap]
    | false =>
      simp only [List.find?_cons, hb] at h
      simp only [List.map_cons]
      rw [if_neg (by simp [hb])]
      simp only [List.find?_cons, hb]
      exact ih row h

theorem getScore_add_or_update {st : List SegmentScoreRow} {sid : Nat} {row : SegmentScoreRow}
    (kw : ScoreKwargs) (h : getScore st sid = some row) :
    getScore (add_or_update_score st sid kw) sid = some (applyKwargs row kw) := by
  unfold getScore at h
  unfold add_or_update_score getScore
  rw [h]
  exact find?_update_map kw sid st row h

/-- A row whose `escalated_to_cloud` flag is already `True`. -/
def escalatedRow : SegmentScoreRow :=
  { segment_id := 1
    text_score := some (4/5)
    vision_score := none
    audio_emphasis_score := none
    facial_emphasis_score := none
    cloud_score := none
    combined_score := some (4/5)
    escalated_to_cloud := true }

/-- Keyword arguments passing `escalated_to_cloud=False` explicitly. -/
def resetKwargs : ScoreKwargs :=
  { text_score := none
    vision_score := none
    audio_emphasis_score := none
    facial_emphasis_score := none
    cloud_score := none
    combined_score := none
    escalated_to_cloud := some false }

/-- C7 counterexample: the claim that no operation sequence ever resets
`escalated_to_cloud` is false — a single `add_or_update_score` call passing
`escalated_to_cloud=False` flips a `True` flag back to `False`, because the
update loop writes every non-`None` keyword value. -/
theorem c7_counterexample :
    (getScore [escalatedRow] 1).map (fun r => r.escalated_to_cloud) = some true ∧
    (getScore (add_or_update_score [escalatedRow] 1 resetKwargs) 1).map
        (fun r => r.escalated_to_cloud) = some false := by
  constructor
  · rfl
  · rfl

/-- C7 amended: `escalated_to_cloud` is monotonic across every
`add_or_update_score` call that does not explicitly pass
`escalated_to_cloud=False`: keywords that are absent or passed as `None`
never reset a `True` flag. (The unguarded reset of the counterexample is the
only way the flag can go back to `False`.) -/
theorem c7_escalated_monotone_unless_explicit_false
    (st : List SegmentScoreRow) (sid : Nat) (kw : ScoreKwargs) (row : SegmentScoreRow)
    (hfound : getScore st sid = some row)
    (htrue : row.escalated_to_cloud = true)
    (hnoreset : kw.escalated_to_cloud ≠ some false) :
    (getScore (add_or_update_score st sid kw) sid).map
      (fun r => r.escalated_to_cloud) = some true := by
  rw [getScore_add_or_update kw hfound]
  cases hk : kw.escalated_to_cloud with
  | none => simp [applyKwargs, hk, htrue]
  | some b =>
    cases b with
    | false => exact absurd hk hnoreset
    | true => simp [applyKwargs, hk]

/-- Witness for C7's amended theorem at a concrete store and call. -/
theorem c7_witness :
    (getScore (add_or_update_score [escalatedRow] 1
        { text_score := none
          vision_score := some (1/2)
          audio_emphasis_score := none
          facial_emphasis_score := none
          cloud_score := none
          combined_score := none
          escalated_to_cloud := none }) 1).map
      (fun r => r.escalated_to_cloud) = some true :=
  c7_escalated_monotone_unless_explicit_false [escalatedRow] 1 _ escalatedRow
    (by rfl) (by rfl) (by simp)

/-- C9: an `add_or_update_score` call on an existing row writes exactly the
non-`None` keyword values; keywords that are `None` (or absent) leave the
corresponding column unchanged, so populated scores are never overwritten
with null. -/
theorem c9_update_frame_conditions
    (st : List SegmentScoreRow) (sid : Nat) (kw : ScoreKwargs) (row : SegmentScoreRow)
    (hfound : getScore st sid = some row) :
    getScore (add_or_update_score st sid kw) sid = some (applyKwargs row kw) ∧
    (applyKwargs row kw).segment_id = row.segment_id ∧
    (kw.text_score = none → (applyKwargs row kw).text_score = row.text_score) ∧
    (∀ q, kw.text_score = some q → (applyKwargs row kw).text_score = some q) ∧
    (kw.vision_score = none → (applyKwargs row kw).vision_score = row.vision_score) ∧
    (∀ q, kw.vision_score = some q → (applyKwargs row kw).vision_score = some q) ∧
    (kw.audio_emphasis_score = none →
      (applyKwargs row kw).audio_emphasis_score = row.audio_emphasis_score) ∧
    (∀ q, kw.audio_emphasis_score = some q →
      (applyKwargs row kw).audio_emphasis_score = some q) ∧
    (kw.facial_emphasis_score = none →
      (applyKwargs row kw).facial_emphasis_score = row.facial_emphasis_score) ∧
    (∀ q, kw.facial_emphasis_score = some q →
      (applyKwargs row kw).facial_emphasis_score = some q) ∧
    (kw.cloud_score = none → (applyKwargs row kw).cloud_score = row.cloud_score) ∧
    (∀ q, kw.cloud_score = some q → (applyKwargs row kw).cloud_score = some q) ∧
    (kw.combined_score = none → (applyKwargs row kw).combined_score = row.combined_score) ∧
    (∀ q, kw.combined_score = some q → (applyKwargs row kw).combined_score = some q) ∧
    (kw.escalated_to_cloud = none →
      (applyKwargs row kw).escalated_to_cloud = row.escalated_to_cloud) := by
  refine ⟨getScore_add_or_update kw hfound, rfl, ?_, ?_, ?_, ?_, ?_, ?_, ?_, ?_, ?_, ?_, ?_,
    ?_, ?_⟩ <;>
    first
      | (intro h; simp [applyKwargs, h])
      | (intro q h; simp [applyKwargs, h])

/-- Witness for C9 at a concrete store: a `None` text score does not clobber
the populated value, while a non-`None` vision score is written. -/
theorem c9_witness :
    getScore (add_or_update_score [escalatedRow] 1
        { text_score := none
          vision_score := some (3/5)
          audio_emphasis_score := none
          facial_emphasis_score := none
          cloud_score := none
          combined_score := none
          escalated_to_cloud := none }) 1
      = some (applyKwargs escalatedRow
        { text_score := none
          vision_score := some (3/5)
          audio_emphasis_score := none
          facial_emphasis_score := none
          cloud_score := none
          combined_score := none
          escalated_to_cloud := none }) ∧
    (applyKwargs escalatedRow
        { text_score := none
          vision_score := some (3/5)
          audio_emphasis_score := none
          facial_emphasis_score := none
          cloud_score := none
          combined_score := none
          escalated_to_cloud := none }).text_score = escalatedRow.text_score := by
  have h := c9_update_frame_conditions [escalatedRow] 1
    { text_score := none
      vision_score := some (3/5)
      audio_emphasis_score := none
      facial_emphasis_score := none
      cloud_score := none
      combined_score := none
      escalated_to_cloud := none } escalatedRow (by rfl)
  exact ⟨h.1, h.2.2.1 rfl⟩

/-! ## Pipeline database state and the orchestrator
(src/pipeline/orchestrator.py, src/database/operations.py) -/

/-- A `processing_log` row as written by `DatabaseOperations.log_step`. -/
structure LogEntry where
  video_id : Nat
  step : String
  status : String
  message : Option String
deriving DecidableEq, Repr

/-- A `transcript` row. -/
structure TranscriptSeg where
  start_time : ℚ
  end_time : ℚ
  text : String
deriving DecidableEq, Repr

/-- The database state visible to one pipeline run over one video.
`videoStatus = none` models `get_video` returning `None`. -/
structure PipelineDB where
  video_id : Nat
  videoStatus : Option String
  transcript : List TranscriptSeg
  logs : List LogEntry
deriving DecidableEq, Repr

/-- `DatabaseOperations.log_step`: appends one `ProcessingLog` row. -/
def log_step (db : PipelineDB) (step status : String) (message : Option String) :
    PipelineDB :=
  { db with logs := db.logs ++ [{ video_id := db.video_id, step := step,
                                  status := status, message := message }] }

/-- `DatabaseOperations.add_transcript_segments`: appends one `Transcript`
row per segment. -/
def add_transcript_segments (db : PipelineDB) (segs : List TranscriptSeg) : PipelineDB :=
  { db with transcript := db.transcript ++ segs }

/-- `DatabaseOperations.update_video_status`: writes the status column if the
video row exists. -/
def update_video_status (db : PipelineDB) (status : String) : PipelineDB :=
  match db.videoStatus with
  | none => db
  | some _ => { db with videoStatus := some status }

/-- `PipelineOrchestrator._update_state`: looks the video up, validates the
transition, and either updates the status or re-raises the `ValueError`
(the `.error` branch, carrying the untouched database). -/
def orchestrator_update_state (db : PipelineDB) (new_state : String) :
    Except (String × PipelineDB) PipelineDB :=
  match db.videoStatus with
  | none => .ok db
  | some st =>
    match validate_transition st new_state with
    | .ok _ => .ok (update_video_status db new_state)
    | .error e => .error (renderTransitionError e, db)

/-- The uniform result envelope returned by the transcription agent, as
consumed by `_run_transcription` (`result.get('success')`,
`result['transcript_segments']`, `result.get('errors')`). -/
structure StageEnvelope where
  success : Bool
  transcript_segments : List TranscriptSeg
  errors : Option String
deriving DecidableEq, Repr

/-- `PipelineOrchestrator._run_transcription`: on a success envelope, store
the transcript, request the `TRANSCRIBED` transition (which may raise) and
log `ok`; on a failure envelope, log `fail` with the envelope's errors and
return `False`. No state transition is requested on the failure path. -/
def run_transcription (db : PipelineDB) (env : StageEnvelope) :
    Except (String × PipelineDB) (Bool × PipelineDB) :=
  if env.success then
    let db1 := add_transcript_segments db env.transcript_segments
    match orchestrator_update_state db1 "transcribed" with
    | .error e => .error e
    | .ok db2 => .ok (true, log_step db2 "transcribe" "ok" none)
  else
    .ok (false, log_step db "transcribe" "fail" env.errors)

/-- `PipelineOrchestrator.execute_pipeline`, restricted to the implemented
portion of the source: `ensure_directories` touches only the filesystem;
`_run_transcription` is the only implemented stage, and the later stage
helpers are `pass` placeholders returning `None`, so after a successful
transcription the `if not self._run_text_scoring(...)` guard returns
`False` without further effects. The surrounding `try/except` catches any
raised error, requests the `ERROR` transition and logs a `fail` entry for
step `pipeline`; an invalid `ERROR` transition re-raises out of the method
(the outer `.error`). -/
def execute_pipeline (db : PipelineDB) (env : StageEnvelope) :
    Except String (Bool × PipelineDB) :=
  match run_transcription db env with
  | .ok (_, db1) => .ok (false, db1)
  | .error (e, dbe) =>
    match orchestrator_update_state dbe "error" with
    | .ok db2 => .ok (false, log_step db2 "pipeline" "fail" (some e))
    | .error (e2, _) => .error e2

/-- C2 counterexample: a failing transcription envelope appends the `fail`
log entry and halts, but the video is left in `ingested` — the orchestrator
never requests the `ERROR` transition on the failure-envelope path (only the
exception path does), so the claim that the video is transitioned to `ERROR`
is false. -/
theorem c2_counterexample :
    execute_pipeline
        { video_id := 1, videoStatus := some ("ingested"), transcript := [], logs := [] }
        { success := false, transcript_segments := [], errors := some ("whisper crashed") }
      = .ok (false,
        { video_id := 1, videoStatus := some ("ingested"), transcript := [],
          logs := [{ video_id := 1, step := "transcribe", status := "fail",
                     message := some ("whisper crashed") }] }) ∧
    some ("ingested") ≠ some ("error") := by
  exact ⟨rfl, by decide⟩

/-- C2 amended: on a failure envelope from the transcription stage the
orchestrator appends exactly one `fail` ProcessingLog entry carrying the
error detail and halts (no transcript rows are written and no later stage
runs), but the video status is left unchanged rather than transitioned to
`ERROR`; the `ERROR` transition happens only when a stage raises an
exception. -/
theorem c2_failure_envelope_no_error_transition (db : PipelineDB) (env : StageEnvelope)
    (h : env.success = false) :
    execute_pipeline db env = .ok (false, log_step db "transcribe" "fail" env.errors) ∧
    (log_step db "transcribe" "fail" env.errors).videoStatus = db.videoStatus ∧
    (log_step db "transcribe" "fail" env.errors).transcript = db.transcript ∧
    (log_step db "transcribe" "fail" env.errors).logs
      = db.logs ++ [{ video_id := db.video_id, step := "transcribe",
                      status := "fail", message := env.errors }] := by
  refine ⟨?_, rfl, rfl, rfl⟩
  unfold execute_pipeline run_transcription
  rw [h]
  simp

/-- Witness for C2's amended theorem at a concrete failing run. -/
theorem c2_witness :
    execute_pipeline
        { video_id := 7, videoStatus := some ("ingested"), transcript := [], logs := [] }
        { success := false, transcript_segments := [], errors := some ("timeout") }
      = .ok (false, log_step
          { video_id := 7, videoStatus := some ("ingested"), transcript := [], logs := [] }
          "transcribe" "fail" (some ("timeout"))) :=
  (c2_failure_envelope_no_error_transition
    { video_id := 7, videoStatus := some ("ingested"), transcript := [], logs := [] }
    { success := false, transcript_segments := [], errors := some ("timeout") } rfl).1

/-! ## Direct status writes by stage agents
(src/agents/text_scoring.py lines 217-220, src/agents/vision_scoring.py
lines 294-297) -/

/-- The success tail of `TextScoringAgent.execute`:
`video = db_ops.get_video(video_id); video.status = 'segmented';
db_ops.session.commit()` — an unvalidated direct write. -/
def text_scoring_status_write (db : PipelineDB) : PipelineDB :=
  { db with videoStatus := db.videoStatus.map (fun _ => "segmented") }

/-- The success tail of `VisionScoringAgent.execute`:
`video.status = 'scored'; db_ops.session.commit()`. -/
def vision_scoring_status_write (db : PipelineDB) : PipelineDB :=
  { db with videoStatus := db.videoStatus.map (fun _ => "scored") }

/-- C8: the claim that only the orchestrator mutates the Video status, and
always through the transition-validity check, is contradicted by the code:
both scoring agents assign `video.status` directly. Evaluated at states
where the state machine forbids the move, the agents still write the status
that `validate_transition` would reject, so the write bypasses the check. -/
theorem c8_agents_write_status_unvalidated :
    (text_scoring_status_write
        { video_id := 1, videoStatus := some ("ready"), transcript := [], logs := [] }).videoStatus
      = some ("segmented") ∧
    validate_transition ("ready") ("segmented")
      = .error (.invalidTransition ("ready") ("segmented")) ∧
    (vision_scoring_status_write
        { video_id := 2, videoStatus := some ("ingested"), transcript := [], logs := [] }).videoStatus
      = some ("scored") ∧
    validate_transition ("ingested") ("scored")
      = .error (.invalidTransition ("ingested") ("scored")) := by
  exact ⟨rfl, rfl, rfl, rfl⟩

/-! ## Score aggregation (src/agents/scoring_ranking.py,
src/agents/vision_scoring.py, src/agents/text_scoring.py) -/

/-- The per-channel weight configuration of `ScoringRankingAgent`. -/
structure ChannelWeights where
  text_score : ℚ
  vision_score : ℚ
  audio_emphasis : ℚ
  facial_emphasis : ℚ
  cloud_score : ℚ
deriving DecidableEq, Repr

/-- The default weights from `ScoringRankingAgent.__init__`. -/
def defaultWeights : ChannelWeights :=
  { text_score := 3/10, vision_score := 3/10, audio_emphasis := 3/20,
    facial_emphasis := 3/20, cloud_score := 1/10 }

/-- The five score channels of one segment, each independently nullable. -/
structure ChannelScores where
  text : Option ℚ
  vision : Option ℚ
  audio : Option ℚ
  facial : Option ℚ
  cloud : Option ℚ
deriving DecidableEq, Repr

/-- Weight/contribution of one channel: an absent channel contributes zero
weight and zero mass. -/
def channelPart (w : ℚ) : Option ℚ → ℚ × ℚ
  | none => (0, 0)
  | some v => (w, w * v)

/-- Specification-side definition, written from the spec's words (section
4.4 item 3 and Scenario A): the final score is the weighted sum over exactly
the populated channels, with the weights renormalized so the populated
weights sum to 1. Compared against the code-side definitions below. -/
def specFinalScore (w : ChannelWeights) (s : ChannelScores) : ℚ :=
  let parts := [channelPart w.text_score s.text, channelPart w.vision_score s.vision,
    channelPart w.audio_emphasis s.audio, channelPart w.facial_emphasis s.facial,
    channelPart w.cloud_score s.cloud]
  (parts.map Prod.snd).sum / (parts.map Prod.fst).sum

/-- `ScoringRankingAgent._calculate_final_score` is a `pass` placeholder in
the source: it returns `None` for every segment. -/
def calculate_final_score (_segment : ChannelScores) : Option ℚ :=
  none

/-- The combined score written by `TextScoringAgent._save_segments_to_db`:
`SegmentScore(..., text_score=seg['score'], combined_score=seg['score'])`. -/
def text_initial_combined_score (score : ℚ) : ℚ :=
  score

/-- The combined score written by `VisionScoringAgent.execute`:
`text_score = segment.scores.text_score or 0;
combined_score = (text_score + vision_score) / 2`. A missing (or zero)
text score is counted as 0 but still divided by 2 — there is no
renormalization and the configured weights are not consulted. -/
def vision_combined_score (text_score : Option ℚ) (vision_score : ℚ) : ℚ :=
  ((text_score.getD 0) + vision_score) / 2

/-- C3 counterexample: with weight configuration text=0.4, vision=0.2 and a
segment scored text=0.8, vision=0, the code's combined score is 0.4 while
the claimed renormalized weighted sum is 8/15; the code ignores the weight
configuration entirely, so the claim is false. -/
theorem c3_counterexample :
    vision_combined_score (some (4/5)) 0 = 2/5 ∧
    specFinalScore
        { text_score := 2/5, vision_score := 1/5, audio_emphasis := 3/20,
          facial_emphasis := 3/20, cloud_score := 1/10 }
        { text := some (4/5), vision := some 0, audio := none, facial := none, cloud := none }
      = 8/15 ∧
    (2/5 : ℚ) ≠ 8/15 := by
  refine ⟨by norm_num [vision_combined_score], ?_, by norm_num⟩
  norm_num [specFinalScore, channelPart]

/-- C3 amended: the configurable weighted scorer
(`_calculate_final_score`) is an unimplemented stub returning nothing; the
combined score actually stored is (a) `text_score` itself when the text
stage creates the row — so Scenario A's text-only segment with 0.8 does get
combined 0.8 — and (b) the unweighted average `(text_score or 0 +
vision_score) / 2` once the vision stage runs. That average coincides with
the spec's renormalized weighted sum only under the default (equal
text/vision) weights with both channels populated; with an absent text
score the code halves the vision score instead of renormalizing. -/
theorem c3_combined_score_behaviour (t v : ℚ) :
    calculate_final_score
        { text := some t, vision := some v, audio := none, facial := none, cloud := none }
      = none ∧
    text_initial_combined_score t = t ∧
    vision_combined_score (some t) v
      = specFinalScore defaultWeights
          { text := some t, vision := some v, audio := none, facial := none, cloud := none } ∧
    vision_combined_score none v = v / 2 ∧
    specFinalScore defaultWeights
        { text := none, vision := some v, audio := none, facial := none, cloud := none }
      = v := by
  refine ⟨rfl, rfl, ?_, ?_, ?_⟩
  · show (t + v) / 2 = _
    norm_num [specFinalScore, channelPart, defaultWeights]
    ring
  · norm_num [vision_combined_score]
  · norm_num [specFinalScore, channelPart, defaultWeights]

/-! ## Output protocol layer (src/protocols/prompt_protocols.py) -/

/-- ASCII lower-casing of one character; models Python `str.lower` on the
ASCII range (the recommendation vocabulary is ASCII). -/
def lowerChar (c : Char) : Char :=
  if 'A' ≤ c ∧ c ≤ 'Z' then Char.ofNat (c.toNat + 32) else c

/-- Python `s.lower()` restricted to ASCII case mapping. -/
def pyLower (s : String) : String :=
  String.mk (s.data.map lowerChar)

/-- The enumerated recommendation values of `QualityAssuranceOutput`. -/
def validRecommendations : List String :=
  ["accept", "reject", "uncertain"]

/-- A pydantic-style field error: the failing field's location and the
constraint message. -/
abbrev FieldErr := String × String

/-- `QualityAssuranceOutput.validate_recommendation`:
`if recommendation.lower() not in valid: raise ValueError(...)`; on success
the lowercased value is returned (and stored in the record). -/
def validate_recommendation (recommendation : String) : Except FieldErr String :=
  if validRecommendations.contains (pyLower recommendation) then
    .ok (pyLower recommendation)
  else
    .error ("recommendation",
      "Value error, recommendation must be one of [accept, reject, uncertain]")

/-- C10: a recommendation differing from one of `accept`, `reject`,
`uncertain` only by letter case validates and is stored lowercased; every
other string is rejected with an error naming the `recommendation` field. -/
theorem c10_recommendation_case_insensitive (r : String) :
    ((∃ v ∈ validRecommendations, pyLower r = pyLower v) →
      validate_recommendation r = .ok (pyLower r) ∧ pyLower r ∈ validRecommendations) ∧
    ((∀ v ∈ validRecommendations, pyLower r ≠ pyLower v) →
      validate_recommendation r
        = .error ("recommendation",
            "Value error, recommendation must be one of [accept, reject, uncertain]")) := by
  constructor
  · rintro ⟨v, hv, hlow⟩
    have hfix : pyLower v = v := by
      fin_cases hv <;> rfl
    have hmem : pyLower r ∈ validRecommendations := by
      rw [hlow, hfix]; exact hv
    have hcont : validRecommendations.contains (pyLower r) = true := by
      exact List.elem_iff.mpr hmem
    exact ⟨by rw [validate_recommendation, if_pos hcont], hmem⟩
  · intro hall
    have hnot : ¬ validRecommendations.contains (pyLower r) = true := by
      intro hc
      have hmem : pyLower r ∈ validRecommendations := List.elem_iff.mp hc
      have hor : pyLower r = "accept" ∨ pyLower r = "reject" ∨ pyLower r = "uncertain" := by
        simpa [validRecommendations] using hmem
      have hfix : pyLower r = pyLower (pyLower r) := by
        rcases hor with h | h | h <;> rw [h] <;> decide
      exact hall (pyLower r) hmem hfix
    rw [validate_recommendation, if_neg hnot]

/-- Witness for C10: `Accept` differs from `accept` only by case and
validates to the lowercased value. -/
theorem c10_witness :
    validate_recommendation ("Accept") = .ok ("accept") := by
  have h := (c10_recommendation_case_insensitive ("Accept")).1
    ⟨"accept", by decide, by decide⟩
  have hl : pyLower ("Accept") = "accept" := by decide
  rw [hl] at h
  exact h.1

/-! ### JSON values and `json.loads` -/

/-- A JSON value as produced by `json.loads`; numbers are modelled as
rationals. -/
inductive JValue where
  | null
  | bool (b : Bool)
  | num (q : ℚ)
  | str (s : String)
  | arr (xs : List JValue)
  | obj (fields : List (String × JValue))

/-- JSON insignificant whitespace. -/
def jsonWs (c : Char) : Bool :=
  c == ' ' || c == '\t' || c == '\n' || c == '\r'

def dropJsonWs (l : List Char) : List Char :=
  l.dropWhile jsonWs

/-- JSON string escape sequences (`\uXXXX` escapes are not modelled; none of
the protocol fields use them). -/
def escapeChar (c : Char) : Option Char :=
  if c = '"' then some '"'
  else if c = '\\' then some '\\'
  else if c = '/' then some '/'
  else if c = 'n' then some '\n'
  else if c = 't' then some '\t'
  else if c = 'r' then some '\r'
  else if c = 'b' then some (Char.ofNat 8)
  else if c = 'f' then some (Char.ofNat 12)
  else none

/-- Consume a JSON string body up to the closing quote. -/
def takeJsonString : List Char → List Char → Option (String × List Char)
  | _, [] => none
  | acc, c :: rest =>
    if c = '"' then some (String.mk acc.reverse, rest)
    else if c = '\\' then
      match rest with
      | [] => none
      | e :: rest2 =>
        match escapeChar e with
        | some ce => takeJsonString (ce :: acc) rest2
        | none => none
    else takeJsonString (c :: acc) rest

def digitsToNat (l : List Char) : Nat :=
  l.foldl (fun a c => a * 10 + (c.toNat - 48)) 0

/-- Consume a JSON number (sign, integer part, optional fraction, optional
exponent); the value is assembled with integer arithmetic and `mkRat`. -/
def takeJsonNumber (l : List Char) : Option (ℚ × List Char) :=
  let signSplit : Bool × List Char :=
    match l with
    | c :: t => if c = '-' then (true, t) else (false, l)
    | [] => (false, [])
  let neg := signSplit.1
  let l1 := signSplit.2
  let intPart := l1.takeWhile Char.isDigit
  let l2 := l1.dropWhile Char.isDigit
  if intPart.isEmpty then none
  else
    let withFrac : Option (Nat × Nat × List Char) :=
      match l2 with
      | '.' :: t =>
        let fracPart := t.takeWhile Char.isDigit
        let l3 := t.dropWhile Char.isDigit
        if fracPart.isEmpty then none
        else
          let den := 10 ^ fracPart.length
          some (digitsToNat intPart * den + digitsToNat fracPart, den, l3)
      | _ => some (digitsToNat intPart, 1, l2)
    match withFrac with
    | none => none
    | some (mant, den, l3) =>
      let finish : Nat → Nat → List Char → Option (ℚ × List Char) := fun m d rest =>
        some ((if neg then -(mkRat m d) else mkRat m d), rest)
      match l3 with
      | c :: t =>
        if c = 'e' ∨ c = 'E' then
          let expSplit : Bool × List Char :=
            match t with
            | d :: t2 => if d = '-' then (true, t2) else if d = '+' then (false, t2) else (false, t)
            | [] => (false, [])
          let expPart := expSplit.2.takeWhile Char.isDigit
          let l4 := expSplit.2.dropWhile Char.isDigit
          if expPart.isEmpty then none
          else if expSplit.1 then finish mant (den * 10 ^ digitsToNat expPart) l4
          else finish (mant * 10 ^ digitsToNat expPart) den l4
        else finish mant den l3
      | [] => finish mant den []

mutual

/-- Recursive-descent JSON value reader; the fuel strictly exceeds the
recursion depth of any input of the given length. -/
def parseVal : Nat → List Char → Option (JValue × List Char)
  | 0, _ => none
  | fuel + 1, l =>
    match dropJsonWs l with
    | '{' :: rest =>
      match dropJsonWs rest with
      | '}' :: rest2 => some (.obj [], rest2)
      | rest2 => parseMembers fuel [] rest2
    | '[' :: rest =>
      match dropJsonWs rest with
      | ']' :: rest2 => some (.arr [], rest2)
      | rest2 => parseItems fuel [] rest2
    | '"' :: rest => (takeJsonString [] rest).map (fun p => (.str p.1, p.2))
    | 't' :: 'r' :: 'u' :: 'e' :: rest => some (.bool true, rest)
    | 'f' :: 'a' :: 'l' :: 's' :: 'e' :: rest => some (.bool false, rest)
    | 'n' :: 'u' :: 'l' :: 'l' :: rest => some (.null, rest)
    | rest => (takeJsonNumber rest).map (fun p => (.num p.1, p.2))

/-- Array items after the opening bracket. -/
def parseItems : Nat → List JValue → List Char → Option (JValue × List Char)
  | 0, _, _ => none
  | fuel + 1, acc, l =>
    match parseVal fuel l with
    | none => none
    | some (v, rest) =>
      match dropJsonWs rest with
      | ',' :: rest2 => parseItems fuel (acc ++ [v]) rest2
      | ']' :: rest2 => some (.arr (acc ++ [v]), rest2)
      | _ => none

/-- Object members after the opening brace. -/
def parseMembers : Nat → List (String × JValue) → List Char → Option (JValue × List Char)
  | 0, _, _ => none
  | fuel + 1, acc, l =>
    match dropJsonWs l with
    | '"' :: rest =>
      match takeJsonString [] rest with
      | none => none
      | some (k, rest2) =>
        match dropJsonWs rest2 with
        | ':' :: rest3 =>
          match parseVal fuel rest3 with
          | none => none
          | some (v, rest4) =>
            match dropJsonWs rest4 with
            | ',' :: rest5 => parseMembers fuel (acc ++ [(k, v)]) rest5
            | '}' :: rest5 => some (.obj (acc ++ [(k, v)]), rest5)
            | _ => none
        | _ => none
    | _ => none

end

/-- `json.loads`: reads one value and requires only whitespace to remain. -/
def parseJson (s : String) : Option JValue :=
  match parseVal (4 * s.data.length + 16) s.data with
  | some (v, rest) => if (dropJsonWs rest).isEmpty then some v else none
  | none => none

/-- Python dict lookup for parsed objects; on duplicate keys `json.loads`
keeps the last occurrence. -/
def jlookup (fields : List (String × JValue)) (k : String) : Option JValue :=
  (fields.reverse.find? (fun p => p.1 == k)).map Prod.snd

/-! ### Schema validation (the pydantic output models). Fields are checked
in declaration order and the first failing field is reported, carrying the
field location and the constraint message; `model_dump()` of a validated
record is the object rebuilt from the validated fields in declaration
order. -/

def jsonReqField (fields : List (String × JValue)) (key loc : String) :
    Except FieldErr JValue :=
  match jlookup fields key with
  | some v => .ok v
  | none => .error (loc, "Field required")

def jsonNum (loc : String) : JValue → Except FieldErr ℚ
  | .num q => .ok q
  | _ => .error (loc, "Input should be a valid number")

def jsonStr (loc : String) : JValue → Except FieldErr String
  | .str s => .ok s
  | _ => .error (loc, "Input should be a valid string")

/-- `Field(..., ge=0.0, le=1.0)`. -/
def checkUnitRange (loc : String) (q : ℚ) : Except FieldErr ℚ :=
  if q < 0 then .error (loc, "Input should be greater than or equal to 0")
  else if 1 < q then .error (loc, "Input should be less than or equal to 1")
  else .ok q

/-- `Field(..., ge=0)`. -/
def checkNonneg (loc : String) (q : ℚ) : Except FieldErr ℚ :=
  if q < 0 then .error (loc, "Input should be greater than or equal to 0")
  else .ok q

/-- `Field(..., min_length=n)` on a string field. -/
def checkMinLen (loc : String) (n : Nat) (s : String) : Except FieldErr String :=
  if s.length < n then
    .error (loc, "String should have at least " ++ toString n ++ " characters")
  else .ok s

def jsonStrItems (loc : String) : Nat → List JValue → Except FieldErr (List String)
  | _, [] => .ok []
  | i, v :: rest =>
    match v with
    | .str s => (jsonStrItems loc (i + 1) rest).map (fun ss => s :: ss)
    | _ => .error (loc ++ "." ++ toString i, "Input should be a valid string")

def jsonStrList (loc : String) : JValue → Except FieldErr (List String)
  | .arr xs => jsonStrItems loc 0 xs
  | _ => .error (loc, "Input should be a valid list")

/-- `min_length=1` on a list field. -/
def checkMinItems (loc : String) (ss : List String) : Except FieldErr (List String) :=
  if ss.isEmpty then
    .error (loc, "List should have at least 1 item after validation, not 0")
  else .ok ss

/-- One element of `TextScoringOutput.segments` (the `TextSegment` model):
`start_time >= 0`, `end_time >= 0` with the `end_time > start_time`
validator, `score` in `[0,1]`, `reason` at least 10 characters. -/
def validateTextSegment (loc : String) : JValue → Except FieldErr JValue
  | .obj fields => do
    let st0 ← jsonReqField fields "start_time" (loc ++ ".start_time")
    let st1 ← jsonNum (loc ++ ".start_time") st0
    let st ← checkNonneg (loc ++ ".start_time") st1
    let et0 ← jsonReqField fields "end_time" (loc ++ ".end_time")
    let et1 ← jsonNum (loc ++ ".end_time") et0
    let et2 ← checkNonneg (loc ++ ".end_time") et1
    let et ← if et2 ≤ st then
        Except.error ((loc ++ ".end_time" : String),
          "Value error, end_time must be greater than start_time")
      else Except.ok et2
    let sc0 ← jsonReqField fields "score" (loc ++ ".score")
    let sc1 ← jsonNum (loc ++ ".score") sc0
    let sc ← checkUnitRange (loc ++ ".score") sc1
    let rs0 ← jsonReqField fields "reason" (loc ++ ".reason")
    let rs1 ← jsonStr (loc ++ ".reason") rs0
    let rs ← checkMinLen (loc ++ ".reason") 10 rs1
    pure (.obj [("start_time", .num st), ("end_time", .num et),
                ("score", .num sc), ("reason", .str rs)])
  | _ => .error (loc, "Input should be a valid dictionary")

def validateSegmentsList : Nat → List JValue → Except FieldErr (List JValue)
  | _, [] => .ok []
  | i, v :: rest => do
    let v2 ← validateTextSegment ("segments." ++ toString i) v
    let rest2 ← validateSegmentsList (i + 1) rest
    pure (v2 :: rest2)

/-- `TextScoringOutput`: a non-empty list of `TextSegment`s (the emptiness
check is the `validate_segments` field validator, run after the items). -/
def validateTextScoring : JValue → Except FieldErr JValue
  | .obj fields => do
    let segs0 ← jsonReqField fields "segments" "segments"
    match segs0 with
    | .arr xs => do
      let items ← validateSegmentsList 0 xs
      if xs.isEmpty then
        Except.error (("segments" : String),
          "Value error, At least one segment must be identified")
      else
        pure (.obj [("segments", .arr items)])
    | _ => .error ("segments", "Input should be a valid list")
  | _ => .error ("", "Input should be a valid dictionary")

/-- `VisionScoringOutput`. -/
def validateVisionScoring : JValue → Except FieldErr JValue
  | .obj fields => do
    let v0 ← jsonReqField fields "vision_score" "vision_score"
    let v1 ← jsonNum "vision_score" v0
    let vs ← checkUnitRange "vision_score" v1
    let k0 ← jsonReqField fields "key_visual_elements" "key_visual_elements"
    let k1 ← jsonStrList "key_visual_elements" k0
    let ks ← checkMinItems "key_visual_elements" k1
    let e0 ← jsonReqField fields "emotional_intensity" "emotional_intensity"
    let emo ← jsonStr "emotional_intensity" e0
    let r0 ← jsonReqField fields "reason" "reason"
    let r1 ← jsonStr "reason" r0
    let rs ← checkMinLen "reason" 10 r1
    pure (.obj [("vision_score", .num vs), ("key_visual_elements", .arr (ks.map .str)),
                ("emotional_intensity", .str emo), ("reason", .str rs)])
  | _ => .error ("", "Input should be a valid dictionary")

/-- `QualityAssuranceOutput`, including the `validate_recommendation` field
validator which lowercases the stored value. -/
def validateQualityAssurance : JValue → Except FieldErr JValue
  | .obj fields => do
    let c0 ← jsonReqField fields "confidence_score" "confidence_score"
    let c1 ← jsonNum "confidence_score" c0
    let cs ← checkUnitRange "confidence_score" c1
    let r0 ← jsonReqField fields "recommendation" "recommendation"
    let r1 ← jsonStr "recommendation" r0
    let recv ← validate_recommendation r1
    let k0 ← jsonReqField fields "key_factors" "key_factors"
    let k1 ← jsonStrList "key_factors" k0
    let ks ← checkMinItems "key_factors" k1
    let rs0 ← jsonReqField fields "reason" "reason"
    let rs1 ← jsonStr "reason" rs0
    let rs ← checkMinLen "reason" 10 rs1
    pure (.obj [("confidence_score", .num cs), ("recommendation", .str recv),
                ("key_factors", .arr (ks.map .str)), ("reason", .str rs)])
  | _ => .error ("", "Input should be a valid dictionary")

/-- The three entries of `PROTOCOL_MAP`. -/
inductive ProtocolKind where
  | textScoring
  | visionScoring
  | qualityAssurance
deriving DecidableEq, Repr

/-- `self.output_protocol.model_validate(data)` followed by
`validated.model_dump()`. -/
def validateOutput : ProtocolKind → JValue → Except FieldErr JValue
  | .textScoring, v => validateTextScoring v
  | .visionScoring, v => validateVisionScoring v
  | .qualityAssurance, v => validateQualityAssurance v

/-! ### `Prompt._clean_llm_output`: Python `str.split` / `str.strip` -/

/-- First occurrence of `sep` in a list: the part before it and the part
after it. -/
def firstOccur (sep : List Char) : List Char → Option (List Char × List Char)
  | [] => none
  | c :: t =>
    if isPrefixB sep (c :: t) then some ([], (c :: t).drop sep.length)
    else (firstOccur sep t).map (fun p => (c :: p.1, p.2))

theorem firstOccur_rest_lt (sep : List Char) (hsep : sep ≠ []) :
    ∀ l b a, firstOccur sep l = some (b, a) → a.length < l.length := by
  intro l
  induction l with
  | nil => intro b a h; simp [firstOccur] at h
  | cons c t ih =>
    intro b a h
    rw [firstOccur] at h
    by_cases hp : isPrefixB sep (c :: t) = true
    · rw [if_pos hp] at h
      cases h
      have h1 : 1 ≤ sep.length := by
        cases sep with
        | nil => exact absurd rfl hsep
        | cons x s => simp
      simp only [List.length_drop, List.length_cons]
      omega
    · rw [if_neg hp] at h
      cases hfo : firstOccur sep t with
      | none => rw [hfo] at h; simp at h
      | some p =>
        rw [hfo] at h
        cases p with
        | mk p1 p2 =>
          simp only [Option.map, Option.some.injEq, Prod.mk.injEq] at h
          obtain ⟨hb, ha⟩ := h
          have hlt := ih p1 p2 (by rw [hfo])
          subst ha
          simp only [List.length_cons]
          omega

/-- Python `text.split(sep)` for a non-empty separator. -/
def pySplit (sep : List Char) (l : List Char) : List (List Char) :=
  if hsep : sep = [] then [l]
  else
    match hfo : firstOccur sep l with
    | none => [l]
    | some (b, a) => b :: pySplit sep a
termination_by l.length
decreasing_by exact firstOccur_rest_lt sep hsep l b a hfo

/-- The whitespace stripped by Python `str.strip()` (ASCII range). -/
def pyWsChar (c : Char) : Bool :=
  c == ' ' || c == '\t' || c == '\n' || c == '\r' || c == '\x0b' || c == '\x0c'

def stripChars (l : List Char) : List Char :=
  ((l.dropWhile pyWsChar).reverse.dropWhile pyWsChar).reverse

/-- Python `text.strip()`. -/
def pyStrip (s : String) : String :=
  String.mk (stripChars s.data)

def fence : String := "```"

def fenceJson : String := "```json"

/-- `Prompt._clean_llm_output` on character lists: remove markdown code
fences (`text.split('```json')[1].split('```')[0]`, or the plain-fence
variant), then strip whitespace. -/
def cleanChars (l : List Char) : List Char :=
  if occursB fenceJson.data l then
    stripChars ((pySplit fence.data ((pySplit fenceJson.data l).getD 1 [])).getD 0 [])
  else if occursB fence.data l then
    stripChars ((pySplit fence.data ((pySplit fence.data l).getD 1 [])).getD 0 [])
  else
    stripChars l

/-- `Prompt._clean_llm_output`. -/
def _clean_llm_output (text : String) : String :=
  String.mk (cleanChars text.data)

/-! ### `Prompt.parse_output` -/

/-- The two `ValueError` shapes raised by `parse_output`. -/
inductive ParseError where
  | malformedOutput (msg : String)
  | schemaViolation (field : String) (constraint : String)
deriving DecidableEq, Repr

def jsonFailMsg : String := "Failed to parse LLM output as JSON"

/-- The message of each `parse_output` error: the `json.JSONDecodeError`
wrap, or the validation wrap whose payload starts with the failing field
location (as the pydantic error string does). -/
def renderParseError : ParseError → String
  | .malformedOutput m => m
  | .schemaViolation f c => "LLM output failed validation: " ++ f ++ ": " ++ c

/-- `Prompt.parse_output`: clean, `json.loads` (failure →
`malformedOutput`), then schema validation (failure → `schemaViolation`);
on success the validated record's `model_dump()` is returned. -/
def parse_output (p : ProtocolKind) (output_text : String) : Except ParseError JValue :=
  match parseJson (_clean_llm_output output_text) with
  | none => .error (.malformedOutput jsonFailMsg)
  | some data =>
    match validateOutput p data with
    | .ok validated => .ok validated
    | .error e => .error (.schemaViolation e.1 e.2)

/-- Scenario E input: a quality-assurance output missing the required
`reason` field. -/
def qaMissingReason : String :=
  "\x7b\"confidence_score\": 0.9, \"recommendation\": \"accept\", \"key_factors\": [\"a\"]\x7d"

/-- A quality-assurance output whose confidence score exceeds 1. -/
def qaOverScore : String :=
  "\x7b\"confidence_score\": 1.5, \"recommendation\": \"accept\", \"key_factors\": [\"a\"], \"reason\": \"sufficient detail\"\x7d"

/-- C4: for every raw text, if the cleaned text does not parse as JSON then
`parse_output` fails with `malformedOutput`; if it parses but the schema
check fails then it fails with a `schemaViolation` whose message names the
failing field. In particular an out-of-range score or an empty required
list is reported against its field, and (Scenario E) an output missing the
required `reason` field fails naming `reason`. -/
theorem c4_parse_output_error_taxonomy (p : ProtocolKind) (s : String) :
    (parseJson (_clean_llm_output s) = none →
      parse_output p s = .error (.malformedOutput jsonFailMsg)) ∧
    (∀ v f c, parseJson (_clean_llm_output s) = some v →
      validateOutput p v = .error (f, c) →
      parse_output p s = .error (.schemaViolation f c) ∧
      occursB f.data (renderParseError (.schemaViolation f c)).data = true) ∧
    (∀ fields q, jlookup fields "confidence_score" = some (.num q) → 1 < q →
      validateOutput .qualityAssurance (.obj fields)
        = .error ("confidence_score", "Input should be less than or equal to 1")) ∧
    (∀ fields, jlookup fields "segments" = some (.arr []) →
      validateOutput .textScoring (.obj fields)
        = .error ("segments", "Value error, At least one segment must be identified")) ∧
    parse_output ProtocolKind.qualityAssurance qaMissingReason
      = .error (.schemaViolation ("reason") ("Field required")) := by
  refine ⟨?_, ?_, ?_, ?_, ?_⟩
  · intro h
    unfold parse_output
    rw [h]
  · intro v f c hparse hval
    constructor
    · unfold parse_output
      rw [hparse]
      dsimp only
      rw [hval]
    · have hd : (renderParseError (.schemaViolation f c)).data
          = ("LLM output failed validation: ").data
            ++ (f.data ++ ((": ").data ++ c.data)) := by
        show ((("LLM output failed validation: ").data ++ f.data) ++ (": ").data) ++ c.data = _
        simp [List.append_assoc]
      rw [hd]
      exact occursB_append_right _ (occursB_self_append f.data _)
  · intro fields q hlook hgt
    have hnneg : ¬ (q < 0) := by linarith
    unfold validateOutput validateQualityAssurance
    simp only [jsonReqField, hlook, jsonNum, checkUnitRange, bind, Except.bind,
      if_neg hnneg, if_pos hgt]
  · intro fields hlook
    unfold validateOutput validateTextScoring
    simp [jsonReqField, hlook, validateSegmentsList, bind, Except.bind]
  · rfl

/-- Witness for C4: a syntactically broken output is `malformedOutput`, and
an over-range confidence score is a `schemaViolation` naming
`confidence_score`. -/
theorem c4_witness :
    parse_output ProtocolKind.qualityAssurance ("not json")
      = .error (.malformedOutput jsonFailMsg) ∧
    parse_output ProtocolKind.qualityAssurance qaOverScore
      = .error (.schemaViolation ("confidence_score")
          ("Input should be less than or equal to 1")) := by
  constructor
  · exact (c4_parse_output_error_taxonomy ProtocolKind.qualityAssurance ("not json")).1 rfl
  · exact ((c4_parse_output_error_taxonomy ProtocolKind.qualityAssurance qaOverScore).2.1
      (JValue.obj [("confidence_score", .num (mkRat 3 2)), ("recommendation", .str ("accept")),
        ("key_factors", .arr [.str ("a")]), ("reason", .str ("sufficient detail"))])
      ("confidence_score") ("Input should be less than or equal to 1") rfl rfl).1

/-! ### Facts about occurrences and splitting, used for the fence-wrapping
round-trip. -/

theorem isPrefixB_length {s l : List Char} (h : isPrefixB s l = true) :
    s.length ≤ l.length := by
  induction s generalizing l with
  | nil => simp
  | cons a s ih =>
    cases l with
    | nil => simp [isPrefixB] at h
    | cons b t =>
      simp only [isPrefixB, Bool.and_eq_true] at h
      have := ih h.2
      simp only [List.length_cons]
      omega

theorem isPrefixB_append_sub {s1 s2 l : List Char}
    (h : isPrefixB (s1 ++ s2) l = true) : isPrefixB s1 l = true := by
  induction s1 generalizing l with
  | nil => rfl
  | cons a s ih =>
    cases l with
    | nil => simp [isPrefixB] at h
    | cons b t =>
      simp only [List.cons_append, isPrefixB, Bool.and_eq_true] at h
      simp only [isPrefixB, Bool.and_eq_true]
      exact ⟨h.1, ih h.2⟩

theorem isPrefixB_append_cases {s a t : List Char} (h : isPrefixB s (a ++ t) = true) :
    isPrefixB s a = true ∨ a.length < s.length := by
  induction s generalizing a with
  | nil => left; rfl
  | cons x s ih =>
    cases a with
    | nil => right; simp
    | cons y a2 =>
      simp only [List.cons_append, isPrefixB, Bool.and_eq_true] at h
      rcases ih h.2 with h1 | h1
      · left
        simp only [isPrefixB, Bool.and_eq_true]
        exact ⟨h.1, h1⟩
      · right
        simp only [List.length_cons]
        omega

theorem occursB_false_parts {s c t} (h : occursB s (c :: t) = false) :
    isPrefixB s (c :: t) = false ∧ occursB s t = false := by
  rw [occursB] at h
  exact Bool.or_eq_false_iff.mp h

theorem occursB_mono_prefix {s1 s2 : List Char} :
    ∀ l, occursB (s1 ++ s2) l = true → occursB s1 l = true := by
  intro l
  induction l with
  | nil =>
    intro h
    rw [occursB] at h ⊢
    exact isPrefixB_append_sub h
  | cons c t ih =>
    intro h
    rw [occursB] at h ⊢
    rcases Bool.or_eq_true_iff.mp h with h1 | h1
    · simp [isPrefixB_append_sub h1]
    · simp [ih h1]

theorem firstOccur_none_of_not_occursB {s : List Char} :
    ∀ l, occursB s l = false → firstOccur s l = none := by
  intro l
  induction l with
  | nil => intro h; rfl
  | cons c t ih =>
    intro h
    obtain ⟨h1, h2⟩ := occursB_false_parts h
    rw [firstOccur, if_neg (by simp [h1]), ih h2]
    rfl

theorem firstOccur_self_append {sep r : List Char} (hsep : sep ≠ []) :
    firstOccur sep (sep ++ r) = some ([], r) := by
  cases sep with
  | nil => exact absurd rfl hsep
  | cons c s =>
    show firstOccur (c :: s) (c :: (s ++ r)) = _
    have hp : isPrefixB (c :: s) (c :: (s ++ r)) = true := by
      have h0 := isPrefixB_self_append (c :: s) r
      simpa using h0
    rw [firstOccur, if_pos hp]
    rw [← List.cons_append, List.drop_left]

theorem pySplit_of_none {sep l : List Char} (hsep : sep ≠ []) (h : firstOccur sep l = none) :
    pySplit sep l = [l] := by
  rw [pySplit]
  rw [dif_neg hsep]
  split
  · rfl
  · rename_i b a heq
    rw [h] at heq
    cases heq

theorem pySplit_of_some {sep l b a : List Char} (hsep : sep ≠ [])
    (h : firstOccur sep l = some (b, a)) :
    pySplit sep l = b :: pySplit sep a := by
  rw [pySplit]
  rw [dif_neg hsep]
  split
  · rename_i heq
    rw [h] at heq
    cases heq
  · rename_i b2 a2 heq
    rw [h] at heq
    cases heq
    rfl

theorem occursB_fence_of_fenceJson {l : List Char}
    (h : occursB fenceJson.data l = true) : occursB fence.data l = true := by
  have hsplit : fenceJson.data = fence.data ++ ('j' :: 's' :: 'o' :: 'n' :: []) := rfl
  rw [hsplit] at h
  exact occursB_mono_prefix l h

/-- The first plain-fence occurrence in `m ++ fence` is the trailing fence,
provided `m` contains none and ends in a non-backtick character. -/
theorem firstOccur_fence_at_end :
    ∀ (l : List Char) (b : Char), (b == '`') = false →
      occursB fence.data ((l ++ [b]) : List Char) = false →
      firstOccur fence.data ((l ++ [b]) ++ fence.data) = some (l ++ [b], []) := by
  intro l
  induction l with
  | nil =>
    intro b hb _
    show firstOccur fence.data (b :: fence.data) = some ([b], [])
    have hb2 : ¬ ('`' = b) := by
      intro he
      rw [← he] at hb
      simp at hb
    have hpf : isPrefixB fence.data (b :: fence.data) = false := by
      show isPrefixB ('`' :: '`' :: '`' :: []) (b :: fence.data) = false
      simp [isPrefixB, hb2]
    rw [firstOccur, if_neg (by simp [hpf])]
    have h9 : firstOccur fence.data (fence.data ++ []) = some ([], []) :=
      firstOccur_self_append (by decide)
    simp only [List.append_nil] at h9
    rw [h9]
    rfl
  | cons c t ih =>
    intro b hb hocc
    have hocc2 : occursB fence.data (c :: (t ++ [b])) = false := by simpa using hocc
    obtain ⟨hp, hrest⟩ := occursB_false_parts hocc2
    show firstOccur fence.data (c :: ((t ++ [b]) ++ fence.data)) = some (c :: (t ++ [b]), [])
    have hpf : isPrefixB fence.data (c :: ((t ++ [b]) ++ fence.data)) = false := by
      cases hq : isPrefixB fence.data (c :: ((t ++ [b]) ++ fence.data)) with
      | false => rfl
      | true =>
        exfalso
        have hq2 : isPrefixB fence.data ((c :: (t ++ [b])) ++ fence.data) = true := by
          simpa using hq
        rcases isPrefixB_append_cases hq2 with h1 | h1
        · rw [hp] at h1; cases h1
        · have ht : t = [] := by
            simp only [List.length_cons, List.length_append, List.length_singleton] at h1
            have : fence.data.length = 3 := by decide
            rw [this] at h1
            cases t with
            | nil => rfl
            | cons x t2 => simp at h1; omega
          subst ht
          have hb2 : ¬ ('`' = b) := by
            intro he
            rw [← he] at hb
            simp at hb
          have hq3 : isPrefixB ('`' :: '`' :: '`' :: [])
              (c :: b :: fence.data) = true := by simpa using hq2
          simp [isPrefixB, hb2] at hq3
    rw [firstOccur, if_neg (by simpa using hpf), ih b hb hrest]
    rfl

/-- `"```json"` does not occur in `l ++ "\n```"` when `"```"` does not occur
in `l`: the only fence there is the trailing one, with nothing after it. -/
theorem fenceJson_not_in_tail :
    ∀ l : List Char, occursB fence.data l = false →
      occursB fenceJson.data (l ++ ('\n' :: fence.data)) = false := by
  intro l
  induction l with
  | nil => intro _; decide
  | cons c t ih =>
    intro h
    obtain ⟨hp, ht⟩ := occursB_false_parts h
    have ih2 := ih ht
    show occursB fenceJson.data (c :: (t ++ ('\n' :: fence.data))) = false
    rw [occursB]
    have hpf : isPrefixB fenceJson.data (c :: (t ++ ('\n' :: fence.data))) = false := by
      cases hq : isPrefixB fenceJson.data (c :: (t ++ ('\n' :: fence.data))) with
      | false => rfl
      | true =>
        exfalso
        have hsplit : fenceJson.data = fence.data ++ ('j' :: 's' :: 'o' :: 'n' :: []) := rfl
        have h3 : isPrefixB fence.data (c :: (t ++ ('\n' :: fence.data))) = true := by
          rw [hsplit] at hq
          exact isPrefixB_append_sub hq
        have hq2 : isPrefixB fence.data ((c :: t) ++ ('\n' :: fence.data)) = true := by
          simpa using h3
        rcases isPrefixB_append_cases hq2 with h1 | h1
        · rw [hp] at h1; cases h1
        · have hlen := isPrefixB_length hq
          have hfl : fenceJson.data.length = 7 := by decide
          have hfl3 : fence.data.length = 3 := by decide
          rw [hfl3] at h1
          rw [hfl] at hlen
          simp only [List.length_cons, List.length_append] at h1 hlen
          have : fence.data.length = 3 := by decide
          rw [this] at hlen
          omega
    simp [hpf, ih2]

theorem stripChars_pad (l : List Char) :
    stripChars ('\n' :: (l ++ ['\n'])) = stripChars l := by
  unfold stripChars
  have h1 : List.dropWhile pyWsChar ('\n' :: (l ++ ['\n']))
      = List.dropWhile pyWsChar (l ++ ['\n']) := by
    rw [List.dropWhile_cons, if_pos (by decide)]
  rw [h1, List.dropWhile_append]
  cases he : (List.dropWhile pyWsChar l).isEmpty with
  | true =>
    have hl : List.dropWhile pyWsChar l = [] := by
      cases hx : List.dropWhile pyWsChar l with
      | nil => rfl
      | cons a b => rw [hx] at he; simp at he
    rw [if_pos rfl, hl]
    decide
  | false =>
    rw [if_neg (by simp)]
    rw [List.reverse_append]
    have h2 : (['\n'] : List Char).reverse = ['\n'] := rfl
    rw [h2]
    show (List.dropWhile pyWsChar
        ('\n' :: (List.dropWhile pyWsChar l).reverse)).reverse = _
    rw [List.dropWhile_cons, if_pos (by decide)]

theorem occursB_fence_snoc {l : List Char} {b : Char} (hb : (b == '`') = false)
    (h : occursB fence.data l = false) : occursB fence.data (l ++ [b]) = false := by
  have hb2 : ¬ ('`' = b) := by
    intro he
    rw [← he] at hb
    simp at hb
  induction l with
  | nil =>
    show occursB fence.data [b] = false
    have : isPrefixB ('`' :: '`' :: '`' :: []) [b] = false := by
      simp [isPrefixB]
    show occursB ('`' :: '`' :: '`' :: []) [b] = false
    rw [occursB]
    simp [this, occursB, isPrefixB]
  | cons c t ih =>
    obtain ⟨hp, ht⟩ := occursB_false_parts h
    show occursB fence.data (c :: (t ++ [b])) = false
    rw [occursB]
    have hpf : isPrefixB fence.data (c :: (t ++ [b])) = false := by
      cases hq : isPrefixB fence.data (c :: (t ++ [b])) with
      | false => rfl
      | true =>
        exfalso
        have hq2 : isPrefixB fence.data ((c :: t) ++ [b]) = true := by simpa using hq
        rcases isPrefixB_append_cases hq2 with h1 | h1
        · rw [hp] at h1; cases h1
        · have hlen := isPrefixB_length hq
          have hfl : fence.data.length = 3 := by decide
          rw [hfl] at h1 hlen
          obtain ⟨x, hx⟩ : ∃ x, t = [x] := by
            cases t with
            | nil => simp at hlen
            | cons y t2 =>
              cases t2 with
              | nil => exact ⟨y, rfl⟩
              | cons z t3 => simp at h1; omega
          subst hx
          have hq3 : isPrefixB ('`' :: '`' :: '`' :: [])
              (c :: x :: b :: []) = true := by simpa using hq
          simp [isPrefixB, hb2] at hq3
    simp [hpf, ih ht]

theorem cleanChars_no_fence {l : List Char} (h : occursB fence.data l = false) :
    cleanChars l = stripChars l := by
  have h7 : occursB fenceJson.data l = false := by
    cases hq : occursB fenceJson.data l with
    | false => rfl
    | true => rw [occursB_fence_of_fenceJson hq] at h; cases h
  rw [cleanChars, if_neg (by simp [h7]), if_neg (by simp [h])]

/-- Cleaning a fence-wrapped text (no fence inside) recovers the stripped
inner text: the `'```json' in text` branch fires and the two splits isolate
exactly the wrapped payload. -/
theorem cleanChars_wrap {s : List Char} (h : occursB fence.data s = false) :
    cleanChars (fenceJson.data ++ (('\n' :: s) ++ ('\n' :: fence.data)))
      = stripChars s := by
  have hocc : occursB fenceJson.data
      (fenceJson.data ++ (('\n' :: s) ++ ('\n' :: fence.data))) = true :=
    occursB_self_append _ _
  rw [cleanChars, hocc, if_pos rfl]
  have hcons : occursB fence.data ('\n' :: s) = false := by
    rw [occursB]
    have hx : isPrefixB fence.data ('\n' :: s) = false := by
      show isPrefixB ('`' :: '`' :: '`' :: []) ('\n' :: s) = false
      simp [isPrefixB]
    simp [hx, h]
  have hf1 : firstOccur fenceJson.data
      (fenceJson.data ++ (('\n' :: s) ++ ('\n' :: fence.data)))
      = some ([], ('\n' :: s) ++ ('\n' :: fence.data)) :=
    firstOccur_self_append (by decide)
  have hf2 : firstOccur fenceJson.data (('\n' :: s) ++ ('\n' :: fence.data)) = none :=
    firstOccur_none_of_not_occursB _ (fenceJson_not_in_tail ('\n' :: s) hcons)
  have hsplit1 : pySplit fenceJson.data
      (fenceJson.data ++ (('\n' :: s) ++ ('\n' :: fence.data)))
      = [[], ('\n' :: s) ++ ('\n' :: fence.data)] := by
    rw [pySplit_of_some (by decide) hf1, pySplit_of_none (by decide) hf2]
  rw [hsplit1]
  have hmid : occursB fence.data (('\n' :: s) ++ ['\n']) = false :=
    occursB_fence_snoc (by decide) hcons
  have hf3 : firstOccur fence.data (('\n' :: s) ++ ('\n' :: fence.data))
      = some (('\n' :: s) ++ ['\n'], []) := by
    have h0 := firstOccur_fence_at_end ('\n' :: s) '\n' (by decide) hmid
    simpa using h0
  have hf4 : firstOccur fence.data ([] : List Char) = none := rfl
  have hsplit2 : pySplit fence.data (('\n' :: s) ++ ('\n' :: fence.data))
      = [('\n' :: s) ++ ['\n'], []] := by
    rw [pySplit_of_some (by decide) hf3, pySplit_of_none (by decide) hf4]
  show stripChars ((pySplit fence.data
      (([[], ('\n' :: s) ++ ('\n' :: fence.data)].getD 1 []))).getD 0 []) = _
  have hg1 : ([[], ('\n' :: s) ++ ('\n' :: fence.data)].getD 1 [])
      = ('\n' :: s) ++ ('\n' :: fence.data) := rfl
  rw [hg1, hsplit2]
  show stripChars ('\n' :: (s ++ ['\n'])) = _
  exact stripChars_pad s

/-! ### Inversion lemmas for the validator chain -/

theorem ebind_ok {ε α β : Type} {e : Except ε α} {f : α → Except ε β} {b : β}
    (h : (e >>= f) = Except.ok b) : ∃ a, e = .ok a ∧ f a = .ok b := by
  cases e with
  | error err => simp [Bind.bind, Except.bind] at h
  | ok a => exact ⟨a, rfl, by simpa [Bind.bind, Except.bind] using h⟩

theorem jsonReqField_ok {fs : List (String × JValue)} {k loc : String} {v : JValue}
    (h : jsonReqField fs k loc = .ok v) : jlookup fs k = some v := by
  unfold jsonReqField at h
  cases hl : jlookup fs k with
  | none => rw [hl] at h; cases h
  | some w => rw [hl] at h; cases h; rfl

theorem jsonNum_ok {loc : String} {v : JValue} {q : ℚ}
    (h : jsonNum loc v = .ok q) : v = .num q := by
  cases v <;> simp [jsonNum] at h <;> simp [h]

theorem jsonStr_ok {loc : String} {v : JValue} {s : String}
    (h : jsonStr loc v = .ok s) : v = .str s := by
  cases v <;> simp [jsonStr] at h <;> simp [h]

theorem checkUnitRange_ok {loc : String} {q r : ℚ}
    (h : checkUnitRange loc q = .ok r) : r = q := by
  unfold checkUnitRange at h
  split at h
  · cases h
  · split at h
    · cases h
    · cases h; rfl

theorem checkMinLen_ok {loc : String} {n : Nat} {s t : String}
    (h : checkMinLen loc n s = .ok t) : t = s := by
  unfold checkMinLen at h
  split at h
  · cases h
  · cases h; rfl

theorem checkMinItems_ok {loc : String} {ss tt : List String}
    (h : checkMinItems loc ss = .ok tt) : tt = ss := by
  unfold checkMinItems at h
  split at h
  · cases h
  · cases h; rfl

theorem validate_recommendation_ok {r v : String}
    (h : validate_recommendation r = .ok v) : v = pyLower r := by
  unfold validate_recommendation at h
  split at h
  · cases h; rfl
  · cases h

theorem jsonStrItems_ok {loc : String} :
    ∀ (i : Nat) (xs : List JValue) (ss : List String),
      jsonStrItems loc i xs = .ok ss → xs = ss.map JValue.str := by
  intro i xs
  induction xs generalizing i with
  | nil => intro ss h; cases h; rfl
  | cons v rest ih =>
    intro ss h
    cases v with
    | str s =>
      simp only [jsonStrItems] at h
      cases hi : jsonStrItems loc (i + 1) rest with
      | error e => rw [hi] at h; cases h
      | ok ss2 =>
        rw [hi] at h
        cases h
        rw [ih (i + 1) ss2 hi]
        rfl
    | null => simp [jsonStrItems] at h
    | bool b => simp [jsonStrItems] at h
    | num q => simp [jsonStrItems] at h
    | arr a => simp [jsonStrItems] at h
    | obj o => simp [jsonStrItems] at h

theorem jsonStrList_ok {loc : String} {v : JValue} {ss : List String}
    (h : jsonStrList loc v = .ok ss) : v = .arr (ss.map JValue.str) := by
  cases v with
  | arr xs =>
    simp only [jsonStrList] at h
    rw [jsonStrItems_ok 0 xs ss h]
  | null => simp [jsonStrList] at h
  | bool b => simp [jsonStrList] at h
  | num q => simp [jsonStrList] at h
  | str s => simp [jsonStrList] at h
  | obj o => simp [jsonStrList] at h

/-- A schema-satisfying quality-assurance response whose recommendation is
capitalized (`Accept` is accepted by the case-insensitive validator). -/
def qaUpper : String :=
  "\x7b\"confidence_score\": 0.9, \"recommendation\": \"Accept\", \"key_factors\": [\"a\"], \"reason\": \"sufficient detail\"\x7d"

/-- The structural data parsed from `qaUpper`. -/
def qaUpperParsed : JValue :=
  .obj [("confidence_score", .num (mkRat 9 10)), ("recommendation", .str ("Accept")),
        ("key_factors", .arr [.str ("a")]), ("reason", .str ("sufficient detail"))]

/-- The record `parse_output` actually returns for `qaUpper`. -/
def qaUpperDumped : JValue :=
  .obj [("confidence_score", .num (mkRat 9 10)), ("recommendation", .str ("accept")),
        ("key_factors", .arr [.str ("a")]), ("reason", .str ("sufficient detail"))]

/-- C5 counterexample: `qaUpper` satisfies the quality-assurance schema, yet
the returned record is not equal to the parsed structural data — the
`recommendation` value is normalized to lowercase on the way through. -/
theorem c5_counterexample :
    parseJson (_clean_llm_output qaUpper) = some qaUpperParsed ∧
    parse_output ProtocolKind.qualityAssurance qaUpper = .ok qaUpperDumped ∧
    qaUpperDumped ≠ qaUpperParsed := by
  refine ⟨rfl, rfl, ?_⟩
  intro hcontra
  simp [qaUpperDumped, qaUpperParsed] at hcontra

/-- `'```json\n' + text + '\n```'`: the fence wrapping of Scenario C. -/
def wrapJsonFence (text : String) : String :=
  "```json\n" ++ text ++ "\n```"

/-- C5 amended: for a response whose parsed value validates against the
quality-assurance schema, `parse_output` returns the record built from
exactly the schema's fields of the parsed data, unchanged except that
`recommendation` is lowercased (extra fields are dropped, nothing else is
added); and wrapping the text in ```json fences yields the identical
result provided the text itself contains no ``` sequence. -/
theorem c5_roundtrip_amended (s : String) (fs : List (String × JValue)) (out : JValue)
    (hparse : parseJson (_clean_llm_output s) = some (.obj fs))
    (hval : validateQualityAssurance (.obj fs) = .ok out) :
    parse_output ProtocolKind.qualityAssurance s = .ok out ∧
    (∃ conf recm kf rsn,
      jlookup fs "confidence_score" = some (.num conf) ∧
      jlookup fs "recommendation" = some (.str recm) ∧
      jlookup fs "key_factors" = some (.arr kf) ∧
      jlookup fs "reason" = some (.str rsn) ∧
      out = .obj [("confidence_score", .num conf),
                  ("recommendation", .str (pyLower recm)),
                  ("key_factors", .arr kf), ("reason", .str rsn)]) ∧
    (occursB fence.data s.data = false →
      parse_output ProtocolKind.qualityAssurance (wrapJsonFence s)
        = parse_output ProtocolKind.qualityAssurance s) := by
  refine ⟨?_, ?_, ?_⟩
  · unfold parse_output
    rw [hparse]
    dsimp only
    show (match validateQualityAssurance (.obj fs) with
      | Except.ok validated => Except.ok validated
      | Except.error e => Except.error (ParseError.schemaViolation e.1 e.2)) = _
    rw [hval]
  · unfold validateQualityAssurance at hval
    obtain ⟨c0, hc0, hval⟩ := ebind_ok hval
    obtain ⟨c1, hc1, hval⟩ := ebind_ok hval
    obtain ⟨cs, hcs, hval⟩ := ebind_ok hval
    obtain ⟨r0, hr0, hval⟩ := ebind_ok hval
    obtain ⟨r1, hr1, hval⟩ := ebind_ok hval
    obtain ⟨recv, hrecv, hval⟩ := ebind_ok hval
    obtain ⟨k0, hk0, hval⟩ := ebind_ok hval
    obtain ⟨k1, hk1, hval⟩ := ebind_ok hval
    obtain ⟨ks, hks, hval⟩ := ebind_ok hval
    obtain ⟨rs0, hrs0, hval⟩ := ebind_ok hval
    obtain ⟨rs1, hrs1, hval⟩ := ebind_ok hval
    obtain ⟨rs, hrs, hval⟩ := ebind_ok hval
    refine ⟨c1, r1, (ks.map JValue.str), rs1, ?_, ?_, ?_, ?_, ?_⟩
    · have := jsonReqField_ok hc0
      rw [jsonNum_ok hc1] at this
      exact this
    · have := jsonReqField_ok hr0
      rw [jsonStr_ok hr1] at this
      exact this
    · have := jsonReqField_ok hk0
      rw [jsonStrList_ok hk1] at this
      rw [checkMinItems_ok hks]
      exact this
    · have := jsonReqField_ok hrs0
      rw [jsonStr_ok hrs1] at this
      exact this
    · cases hval
      rw [checkUnitRange_ok hcs, validate_recommendation_ok hrecv,
        checkMinItems_ok hks, checkMinLen_ok hrs]
  · intro hocc
    have hdata : (wrapJsonFence s).data
        = fenceJson.data ++ (('\n' :: s.data) ++ ('\n' :: fence.data)) := by
      show (("```json\n").data ++ s.data) ++ ("\n```").data = _
      rw [show ("```json\n").data = fenceJson.data ++ ['\n'] from rfl,
        show ("\n```").data = '\n' :: fence.data from rfl]
      simp [List.append_assoc]
    have hclean : _clean_llm_output (wrapJsonFence s) = _clean_llm_output s := by
      unfold _clean_llm_output
      rw [hdata, cleanChars_wrap hocc, cleanChars_no_fence hocc]
    unfold parse_output
    rw [hclean]

/-- Witness for C5's amended theorem at the concrete `qaUpper` response. -/
theorem c5_witness :
    parse_output ProtocolKind.qualityAssurance qaUpper = .ok qaUpperDumped ∧
    parse_output ProtocolKind.qualityAssurance (wrapJsonFence qaUpper)
      = parse_output ProtocolKind.qualityAssurance qaUpper := by
  have h := c5_roundtrip_amended qaUpper
    [("confidence_score", .num (mkRat 9 10)), ("recommendation", .str ("Accept")),
     ("key_factors", .arr [.str ("a")]), ("reason", .str ("sufficient detail"))]
    qaUpperDumped rfl rfl
  exact ⟨h.1, h.2.2 (by decide)⟩

/-! ### `Prompt.format` (src/protocols/prompt_protocols.py lines 110-135) -/

def lbrace : Char := Char.ofNat 123

def rbrace : Char := Char.ofNat 125

/-- The failure shapes of `Prompt.format`: the `MissingVariable` ValueError
(listing every absent required name and the full requirement list, as the
f-string does), the ValueError produced by `except KeyError` (a template
placeholder with no matching keyword), and the ValueError raised by
`str.format` itself on a malformed template (not caught by the
`except KeyError` clause, so it propagates unchanged). -/
inductive PromptFormatError where
  | missingVariable (missing required : List String)
  | templateKeyError (key : String)
  | badFormatString (msg : String)
deriving DecidableEq, Repr

def lookupKwarg (kwargs : List (String × String)) (k : String) : Option String :=
  (kwargs.find? (fun p => p.1 == k)).map Prod.snd

/-- Python `str.format` with keyword arguments, on simple `\x7bname\x7d`
placeholders (doubled braces escape; format specs are not modelled — the
repository's templates use bare names). The fuel strictly exceeds the
template length, and every step consumes at least one character. -/
def pyFormatAux (kwargs : List (String × String)) :
    Nat → List Char → List Char → Except PromptFormatError (List Char)
  | 0, _, _ => .error (.badFormatString ("format fuel exhausted"))
  | fuel + 1, acc, l =>
    match l with
    | [] => .ok acc.reverse
    | c :: rest =>
      if c = lbrace then
        match rest with
        | [] => .error (.badFormatString ("Single \x7b encountered in format string"))
        | c2 :: rest2 =>
          if c2 = lbrace then pyFormatAux kwargs fuel (lbrace :: acc) rest2
          else
            let name := rest.takeWhile (fun x => x ≠ rbrace)
            match rest.dropWhile (fun x => x ≠ rbrace) with
            | [] => .error (.badFormatString ("expected \x7d before end of string"))
            | _ :: rest3 =>
              match lookupKwarg kwargs (String.mk name) with
              | some v => pyFormatAux kwargs fuel (v.data.reverse ++ acc) rest3
              | none => .error (.templateKeyError (String.mk name))
      else if c = rbrace then
        match rest with
        | [] => .error (.badFormatString ("Single \x7d encountered in format string"))
        | c2 :: rest2 =>
          if c2 = rbrace then pyFormatAux kwargs fuel (rbrace :: acc) rest2
          else .error (.badFormatString ("Single \x7d encountered in format string"))
      else pyFormatAux kwargs fuel (c :: acc) rest

/-- `self.template.format(**kwargs)`. -/
def pyFormat (kwargs : List (String × String)) (template : String) :
    Except PromptFormatError String :=
  (pyFormatAux kwargs (template.data.length + 1) [] template.data).map String.mk

/-- `Prompt.format`: compute the missing required variables
(`[var for var in self.input_variables if var not in kwargs]`), raise
`MissingVariable` if any, otherwise run `str.format`, converting a
`KeyError` into the template-formatting `ValueError`. -/
def promptFormat (input_variables : List String) (template : String)
    (kwargs : List (String × String)) : Except PromptFormatError String :=
  let missing := input_variables.filter (fun v => !(kwargs.map Prod.fst).contains v)
  if missing.isEmpty then
    match pyFormat kwargs template with
    | .ok s => .ok s
    | .error (.templateKeyError k) => .error (.templateKeyError k)
    | .error e => .error e
  else .error (.missingVariable missing input_variables)

/-- `str.format` itself never raises the `MissingVariable` error: that
shape comes only from the explicit requirement check. -/
theorem pyFormatAux_no_missing (kwargs : List (String × String)) :
    ∀ (fuel : Nat) (acc l : List Char) (m req : List String),
      pyFormatAux kwargs fuel acc l ≠ .error (.missingVariable m req) := by
  intro fuel
  induction fuel with
  | zero =>
    intro acc l m req h
    simp [pyFormatAux] at h
  | succ f ih =>
    intro acc l m req h
    cases l with
    | nil => simp [pyFormatAux] at h
    | cons c rest =>
      rw [pyFormatAux.eq_def] at h
      dsimp only at h
      by_cases h1 : c = lbrace
      · rw [if_pos h1] at h
        cases rest with
        | nil => simp at h
        | cons c2 rest2 =>
          dsimp only at h
          by_cases h2 : c2 = lbrace
          · rw [if_pos h2] at h
            exact ih _ _ _ _ h
          · rw [if_neg h2] at h
            split at h
            · simp at h
            · split at h
              · exact ih _ _ _ _ h
              · simp at h
      · rw [if_neg h1] at h
        by_cases h2 : c = rbrace
        · rw [if_pos h2] at h
          cases rest with
          | nil => simp at h
          | cons c2 rest2 =>
            dsimp only at h
            by_cases h3 : c2 = rbrace
            · rw [if_pos h3] at h
              exact ih _ _ _ _ h
            · rw [if_neg h3] at h
              simp at h
        · rw [if_neg h2] at h
          exact ih _ _ _ _ h

theorem pyFormat_no_missing (kwargs : List (String × String)) (template : String)
    (m req : List String) : pyFormat kwargs template ≠ .error (.missingVariable m req) := by
  intro h
  unfold pyFormat at h
  cases haux : pyFormatAux kwargs (template.data.length + 1) [] template.data with
  | ok t => rw [haux] at h; simp [Except.map] at h
  | error e =>
    rw [haux] at h
    simp [Except.map] at h
    exact pyFormatAux_no_missing kwargs _ _ _ m req (by rw [haux, h])

/-- A valid template (at least 50 characters) whose placeholder is not
among the prompt's declared input variables. -/
def c6template : String :=
  "Summarize the following transcript and return valid JSON: \x7bextra\x7d"

/-- C6 counterexample: with no required input variables (so nothing is
missing) the claim promises the substituted template, but `format` raises
the template-formatting error instead, because the template references a
variable that was not supplied. -/
theorem c6_counterexample :
    promptFormat [] c6template [] = .error (.templateKeyError ("extra")) ∧
    50 ≤ c6template.length ∧
    ([] : List String).filter
      (fun v => !(([] : List (String × String)).map Prod.fst).contains v) = [] := by
  exact ⟨rfl, by decide, rfl⟩

/-- C6 amended: if any required input variable is absent, `format` fails
with a `MissingVariable` error listing exactly the absent required names;
otherwise the result is precisely that of substituting the keyword
arguments into the template — which itself fails (with a formatting error,
never a partially substituted string) when the template references an
unsupplied variable. -/
theorem c6_format_characterization (input_variables : List String) (template : String)
    (kwargs : List (String × String)) :
    (∀ m req, promptFormat input_variables template kwargs
        = .error (.missingVariable m req) →
      req = input_variables ∧ ∀ v, v ∈ m ↔ (v ∈ input_variables ∧ v ∉ kwargs.map Prod.fst)) ∧
    ((∃ v ∈ input_variables, v ∉ kwargs.map Prod.fst) →
      ∃ m, promptFormat input_variables template kwargs
          = .error (.missingVariable m input_variables) ∧
        ∀ v ∈ input_variables, v ∉ kwargs.map Prod.fst → v ∈ m) ∧
    ((∀ v ∈ input_variables, v ∈ kwargs.map Prod.fst) →
      ∀ s, promptFormat input_variables template kwargs = .ok s
        ↔ pyFormat kwargs template = .ok s) := by
  have hmem : ∀ v, v ∈ input_variables.filter
      (fun v => !(kwargs.map Prod.fst).contains v)
      ↔ (v ∈ input_variables ∧ v ∉ kwargs.map Prod.fst) := by
    intro v
    rw [List.mem_filter]
    constructor
    · rintro ⟨h1, h2⟩
      refine ⟨h1, ?_⟩
      intro hv
      rw [Bool.not_eq_true', ← Bool.not_eq_true] at h2
      exact h2 (List.elem_iff.mpr hv)
    · rintro ⟨h1, h2⟩
      refine ⟨h1, ?_⟩
      rw [Bool.not_eq_true', ← Bool.not_eq_true]
      intro hc
      exact h2 (List.elem_iff.mp hc)
  refine ⟨?_, ?_, ?_⟩
  · intro m req herr
    unfold promptFormat at herr
    by_cases he : (input_variables.filter
        (fun v => !(kwargs.map Prod.fst).contains v)).isEmpty
    · rw [if_pos he] at herr
      exfalso
      cases hpf : pyFormat kwargs template with
      | ok s => rw [hpf] at herr; simp at herr
      | error e =>
        rw [hpf] at herr
        cases e with
        | missingVariable a b => exact pyFormat_no_missing kwargs template a b hpf
        | templateKeyError k => simp at herr
        | badFormatString msg => simp at herr
    · rw [if_neg he] at herr
      cases herr
      exact ⟨rfl, hmem⟩
  · intro hex
    refine ⟨input_variables.filter (fun v => !(kwargs.map Prod.fst).contains v), ?_, ?_⟩
    · unfold promptFormat
      rw [if_neg ?_]
      intro he
      obtain ⟨v, hv1, hv2⟩ := hex
      have : v ∈ input_variables.filter (fun v => !(kwargs.map Prod.fst).contains v) :=
        (hmem v).mpr ⟨hv1, hv2⟩
      rw [List.isEmpty_iff.mp he] at this
      cases this
    · intro v hv1 hv2
      exact (hmem v).mpr ⟨hv1, hv2⟩
  · intro hall s
    have he : (input_variables.filter
        (fun v => !(kwargs.map Prod.fst).contains v)).isEmpty = true := by
      rw [List.isEmpty_iff, List.eq_nil_iff_forall_not_mem]
      intro v hv
      obtain ⟨h1, h2⟩ := (hmem v).mp hv
      exact h2 (hall v h1)
    unfold promptFormat
    rw [if_pos he]
    cases hpf : pyFormat kwargs template with
    | ok t => simp
    | error e =>
      cases e with
      | missingVariable a b => simp
      | templateKeyError k => simp
      | badFormatString msg => simp

/-- Witness for C6's amended theorem: a missing `transcript_text` is
reported, and with the variable supplied the full substitution is
returned. -/
theorem c6_witness :
    (∃ m, promptFormat ["transcript_text"] c6template []
        = .error (.missingVariable m ["transcript_text"]) ∧
      ∀ v ∈ (["transcript_text"] : List String), v ∉ (([] : List (String × String)).map Prod.fst) → v ∈ m) ∧
    (promptFormat [] ("Score this: \x7bx\x7b" ++ "") [("x", "one")] = .ok ("ignored")
      ↔ pyFormat [("x", "one")] ("Score this: \x7bx\x7b" ++ "") = .ok ("ignored")) := by
  constructor
  · exact (c6_format_characterization ["transcript_text"] c6template []).2.1
      ⟨"transcript_text", by decide, by decide⟩
  · exact (c6_format_characterization [] ("Score this: \x7bx\x7b" ++ "") [("x", "one")]).2.2
      (by intro v hv; cases hv) ("ignored")

end VidClip
